import Mathlib

/-!
Shallow embedding of the ASL backend: the `predict_sign` view of
`src/backend/app/views.py` and the letters endpoint routed in
`src/backend/app/urls.py`, with the external collaborators (Django request
parsing, base64/PIL decoding, the Keras model) abstracted into their
observable results.
-/

namespace ASL

/-- A JSON value as it appears in the bodies built by the `JsonResponse`
calls of `predict_sign` (only booleans, strings and numbers occur there;
floats are modelled as rationals). -/
inductive JValue where
  | bool (b : Bool)
  | str (s : String)
  | num (q : ℚ)
  deriving DecidableEq, Repr

/-- A JSON object: the ordered field list of a `JsonResponse` body. -/
abbrev JObject := List (String × JValue)

/-- An HTTP response: status code plus JSON object body. -/
structure Response where
  status : Nat
  body : JObject
  deriving DecidableEq, Repr

/-- `JsonResponse({'success': False, 'error': msg}, status=st)`, the shape of
every error response in `predict_sign`. -/
def errResponse (st : Nat) (msg : String) : Response :=
  ⟨st, [("success", JValue.bool false), ("error", JValue.str msg)]⟩

/-- The loaded Keras model, abstracted to what `predict_sign` reads from it:
`input_shape[1:]` (the declared input shape with the batch dimension
dropped, line 83) and `predict`, mapping the 4-d input tensor to the
flattened output vector consumed by `np.argmax` and `np.max`
(lines 90–92). -/
structure Model where
  inputShapeTail : List Nat
  predict : List (List (List (List ℚ))) → List ℚ

/-- The parts of a Django request that `predict_sign` reads, with the
external parsers (Django form parsing, `json.loads`, `parse_qs`, UTF-8
decoding of the body) abstracted into their results. -/
structure Request where
  /-- `request.method` -/
  method : String
  /-- `request.content_type` -/
  contentType : String
  /-- `request.POST.get('image')` for the multipart branch; `none` when the
  form has no `image` field. -/
  postImage : Option String
  /-- the outcome of `json.loads(request.body)` followed by
  `data.get('image')`: `.error` models `json.JSONDecodeError`, `.ok none` a
  JSON body without an `image` key (`get` returns `None`). -/
  jsonImage : Except Unit (Option String)
  /-- the outcome of `request.body.decode('utf-8')` in the fallback branch:
  `.error e` models a decoding exception with text `e`, which escapes the
  inner handling and is caught by the outer `except` (line 119). -/
  rawBody : Except String String
  /-- `parse_qs(body).get('image', [''])[0]` for the URL-encoded fallback. -/
  urlencodedImage : String

/-- The process environment of the view module: the module-level `model`
(which is `None` when `load_model` failed at startup, lines 15–21), and the
image-decoding collaborators (`base64.b64decode`, `Image.open`,
`convert('RGB')`, `resize((64, 64))`, lines 68–76) combined into one
function from the base64 payload to the pixel grid of the resized RGB
image; `.error e` models any exception raised in that chain, `e` being the
exception text interpolated into the error message. -/
structure Env where
  model : Option Model
  decodeResize : String → Except String (List (List (List Nat)))

/-- Python `str.split(sep)` for a one-character separator, on character
lists. -/
def pySplit (sep : Char) : List Char → List (List Char)
  | [] => [[]]
  | c :: cs =>
    if c = sep then [] :: pySplit sep cs
    else
      match pySplit sep cs with
      | [] => [[c]]
      | r :: rs => (c :: r) :: rs

/-- Lines 63–64 of `views.py`:
`if ',' in image_data: image_data = image_data.split(',')[1]`. -/
def stripDataUrlList (l : List Char) : List Char :=
  if ',' ∈ l then (pySplit ',' l).getD 1 [] else l

/-- The data-URL prefix strip of `predict_sign`, as a string function. -/
def stripDataUrl (s : String) : String := String.mk (stripDataUrlList s.toList)

/-- Spec reading of the strip for comparison: the part of the string after
the first comma (everything that follows it). -/
def afterFirstCommaList (l : List Char) : List Char :=
  (l.dropWhile (fun c => c != ',')).drop 1

/-- String version of `afterFirstCommaList`. -/
def afterFirstComma (s : String) : String :=
  String.mk (afterFirstCommaList s.toList)

/-- `np.array(image) / 255.0` (line 79) on the pixel grid of the decoded RGB
image: rows of pixels of channel values. -/
def normalize (a : List (List (List Nat))) : List (List (List ℚ)) :=
  a.map (fun row => row.map (fun px => px.map (fun (v : Nat) => (v : ℚ) / 255)))

/-- `np.expand_dims(image_array, axis=0)` (line 80): prepend a batch
dimension of size 1. -/
def expandDims (a : List (List (List ℚ))) : List (List (List (List ℚ))) := [a]

/-- `numpy` shape of a rectangular 3-d nested list. -/
def npShape3 (a : List (List (List ℚ))) : List Nat :=
  [a.length, (a.headD []).length, ((a.headD []).headD []).length]

/-- `numpy` shape of a rectangular 4-d nested list. -/
def npShape4 (t : List (List (List (List ℚ)))) : List Nat :=
  t.length :: npShape3 (t.headD [])

/-- Running pair (index, value) of the leading maximum, in the style of
`np.argmax`: a strictly larger entry replaces the pair, so the earliest
maximal index is kept. -/
def argmaxPair : List ℚ → Nat → Nat × ℚ → Nat × ℚ
  | [], _, p => p
  | x :: xs, i, (b, bv) =>
    if bv < x then argmaxPair xs (i + 1) (i, x)
    else argmaxPair xs (i + 1) (b, bv)

/-- `np.argmax(prediction)` (line 91): index of the first maximal entry.
(`np.argmax` raises on an empty vector; the handler reaches this only on a
nonempty one, and the `[]` case is an arbitrary default.) -/
def npArgmax : List ℚ → Nat
  | [] => 0
  | x :: xs => (argmaxPair xs 1 (0, x)).1

/-- `np.max(prediction)` (line 92): the greatest entry (`0` on the empty
vector, which the handler never reaches). -/
def npMax : List ℚ → ℚ
  | [] => 0
  | x :: xs => xs.foldl max x

/-- Line 95 of `views.py`: `asl_letters = "ABCDEFGHIJKLMNOPQRSTUVWXYZ"`. -/
def aslLetters : String := "ABCDEFGHIJKLMNOPQRSTUVWXYZ"

/-- `asl_letters[i]`: positional indexing into the alphabet (line 102; the
handler uses it only under the bound check of line 96, so the default is
never taken there). -/
def aslMap (i : Nat) : Char := aslLetters.toList.getD i 'A'

/-- Python `str.startswith`, on the character lists of the strings. -/
def pyStartsWith (s pre : String) : Bool := pre.toList.isPrefixOf s.toList

/-- Lines 33–57 of `views.py`: the content-type dispatch that produces
`image_data`, or an early error response. `.ok none` means `image_data`
ended up `None` (JSON body without an `image` key). A UTF-8 decoding
failure of the body in the fallback branch escapes to the outer `except`
(lines 119–124), producing the 500 `Server error` response. -/
def extractImage (req : Request) : Except Response (Option String) :=
  if pyStartsWith req.contentType "multipart/form-data" then
    match req.postImage with
    | none => Except.error (errResponse 400 "No image data in form")
    | some s =>
      if s = "" then Except.error (errResponse 400 "No image data in form")
      else Except.ok (some s)
  else if req.contentType = "application/json" then
    match req.jsonImage with
    | Except.error _ => Except.error (errResponse 400 "Invalid JSON")
    | Except.ok img => Except.ok img
  else
    match req.rawBody with
    | Except.error e => Except.error (errResponse 500 ("Server error: " ++ e))
    | Except.ok body =>
      if body = "" then Except.error (errResponse 400 "Empty request body")
      else Except.ok (some req.urlencodedImage)

/-- Lines 66–117 of `views.py`: the inner `try` block — base64 decode, image
open, RGB conversion, resize (all in `Env.decodeResize`), normalization,
shape check, prediction, arg-max and letter mapping — whose `except` turns
any exception into the 400 image-processing error. An empty prediction
vector makes `np.argmax` raise, which the same `except` catches. -/
def processImage (env : Env) (m : Model) (imageData : String) : Response :=
  match env.decodeResize imageData with
  | Except.error e => errResponse 400 ("Image processing error: " ++ e)
  | Except.ok a =>
    let imageArray := expandDims (normalize a)
    if (npShape4 imageArray).drop 1 ≠ m.inputShapeTail then
      errResponse 400 ("Invalid image dimensions. Expected " ++
        toString m.inputShapeTail ++ ", got " ++
        toString ((npShape4 imageArray).drop 1))
    else
      match m.predict imageArray with
      | [] =>
        errResponse 400
          "Image processing error: attempt to get argmax of an empty sequence"
      | x :: xs =>
        let predictedClass := npArgmax (x :: xs)
        let confidence := npMax (x :: xs)
        if aslLetters.length ≤ predictedClass then
          errResponse 500 ("Invalid class index " ++ toString predictedClass)
        else
          ⟨200, [("letter", JValue.str (String.mk [aslMap predictedClass])),
                 ("confidence", JValue.num confidence),
                 ("success", JValue.bool true)]⟩

/-- `predict_sign` (lines 24–124 of `views.py`): method check, model
availability check, image extraction, emptiness check, data-URL prefix
strip, then the image-processing pipeline. -/
def predictSign (env : Env) (req : Request) : Response :=
  if req.method ≠ "POST" then errResponse 405 "Only POST requests allowed"
  else
    match env.model with
    | none => errResponse 500 "Model not loaded"
    | some m =>
      match extractImage req with
      | Except.error resp => resp
      | Except.ok none => errResponse 400 "No image data provided"
      | Except.ok (some s) =>
        if s = "" then errResponse 400 "No image data provided"
        else processImage env m (stripDataUrl s)

/-- One record of the letters endpoint body. -/
structure LetterRecord where
  letter : String
  index : Nat
  description : String
  deriving DecidableEq, Repr

/-- The response of the letters endpoint: status plus the `letters` array. -/
structure LettersResponse where
  status : Nat
  letters : List LetterRecord
  deriving DecidableEq, Repr

/-- Modelled from the spec: the `ASLLettersView` handler routed at
`GET /api/asl/letters/` by `src/backend/app/urls.py` is not present under
`src/` (only its route is); per the spec it returns, for each index 0–25,
the record with the letter, the index, and the fixed templated description
`ASL sign for letter X`, ordered by index, with status 200. -/
def aslLettersView : LettersResponse :=
  ⟨200, (List.range 26).map (fun i =>
    { letter := String.mk [aslMap i]
      index := i
      description := "ASL sign for letter " ++ String.mk [aslMap i] })⟩

/-- Rectangularity of a 3-d nested list with the given dimensions. -/
def gridShape {α : Type} (a : List (List (List α))) (d0 d1 d2 : Nat) : Prop :=
  a.length = d0 ∧ ∀ r ∈ a, r.length = d1 ∧ ∀ p ∈ r, p.length = d2

/-- Rectangularity of a 4-d nested list with the given dimensions. -/
def tensorShape {α : Type} (t : List (List (List (List α))))
    (d0 d1 d2 d3 : Nat) : Prop :=
  t.length = d0 ∧ ∀ a ∈ t, gridShape a d1 d2 d3

/-- The response-body invariant of the predict handler: a boolean `success`
field that is `true` exactly on status 200, and a nonempty `error` string
whenever `success` is `false`. -/
def okBody (r : Response) : Prop :=
  ∃ b, List.lookup "success" r.body = some (JValue.bool b) ∧
    (b = true ↔ r.status = 200) ∧
    (b = false → ∃ s, List.lookup "error" r.body = some (JValue.str s) ∧ s ≠ "")

/-- A request whose `image` field is present but empty, in each of the three
content-type branches of `predict_sign`. -/
def emptyImageField (req : Request) : Prop :=
  (pyStartsWith req.contentType "multipart/form-data" = true ∧
    req.postImage = some "") ∨
  (req.contentType = "application/json" ∧
    req.jsonImage = Except.ok (some "")) ∨
  (pyStartsWith req.contentType "multipart/form-data" = false ∧
    req.contentType ≠ "application/json" ∧
    (∃ b, req.rawBody = Except.ok b) ∧ req.urlencodedImage = "")

/-- A concrete loaded model used in witnesses: input shape `(1, 1, 3)` after
the batch dimension, constant one-class output. -/
def modelOk : Model :=
  { inputShapeTail := [1, 1, 3], predict := fun _ => [(1 : ℚ)] }

/-- A concrete environment whose model loaded and whose decoding succeeds on
a 1×1 RGB pixel grid. -/
def envOk : Env :=
  { model := some modelOk, decodeResize := fun _ => Except.ok [[[0, 0, 0]]] }

/-- A concrete JSON request carrying a nonempty image payload. -/
def reqOk : Request :=
  { method := "POST", contentType := "application/json", postImage := none
    jsonImage := Except.ok (some "xyz"), rawBody := Except.ok ""
    urlencodedImage := "" }

/-- A concrete environment whose model failed to load at startup. -/
def envNoModel : Env :=
  { model := none, decodeResize := fun _ => Except.error "unreachable" }

/-- A concrete JSON request whose `image` field is present but empty. -/
def reqEmptyImage : Request :=
  { method := "POST", contentType := "application/json", postImage := none
    jsonImage := Except.ok (some ""), rawBody := Except.ok ""
    urlencodedImage := "" }

/-- A concrete environment whose model loaded but whose base64/image decode
chain raises. -/
def envBadB64 : Env :=
  { model := some modelOk
    decodeResize := fun _ => Except.error "Invalid base64-encoded string" }

/-- A concrete JSON request carrying a corrupted base64 image string. -/
def reqBadB64 : Request :=
  { method := "POST", contentType := "application/json", postImage := none
    jsonImage := Except.ok (some "!!!!"), rawBody := Except.ok ""
    urlencodedImage := "" }

/-- A concrete 64×64×3 zero pixel grid, as a decoded and resized image. -/
def grid64 : List (List (List Nat)) :=
  List.replicate 64 (List.replicate 64 (List.replicate 3 0))

/-! ## Helper lemmas -/

theorem append_ne_empty (s t : String) (hs : s ≠ "") : s ++ t ≠ "" := by
  intro h
  apply hs
  have hd := congrArg String.data h
  rw [String.data_append] at hd
  have : s.data = [] := (List.append_eq_nil.mp hd).1
  exact String.ext this

theorem pySplit_of_not_mem (l : List Char) (h : ',' ∉ l) :
    pySplit ',' l = [l] := by
  induction l with
  | nil => rfl
  | cons c cs ih =>
    have hc : ¬ c = ',' := fun hc => h (hc ▸ List.mem_cons_self c cs)
    have ht : ',' ∉ cs := fun hm => h (List.mem_cons_of_mem _ hm)
    simp [pySplit, hc, ih ht]

theorem pySplit_append (pre payload : List Char) (hpre : ',' ∉ pre) :
    pySplit ',' (pre ++ ',' :: payload) = pre :: pySplit ',' payload := by
  induction pre with
  | nil => simp [pySplit]
  | cons c cs ih =>
    have hc : ¬ c = ',' := fun hc => hpre (hc ▸ List.mem_cons_self c cs)
    have ht : ',' ∉ cs := fun hm => hpre (List.mem_cons_of_mem _ hm)
    simp [pySplit, hc, ih ht]

theorem stripDataUrlList_append (pre payload : List Char)
    (hpre : ',' ∉ pre) (hpay : ',' ∉ payload) :
    stripDataUrlList (pre ++ ',' :: payload) = payload := by
  have hmem : ',' ∈ pre ++ ',' :: payload :=
    List.mem_append.mpr (Or.inr (List.mem_cons_self _ _))
  rw [stripDataUrlList, if_pos hmem, pySplit_append pre payload hpre,
    pySplit_of_not_mem payload hpay]
  rfl

theorem afterFirstCommaList_append (pre payload : List Char)
    (hpre : ',' ∉ pre) :
    afterFirstCommaList (pre ++ ',' :: payload) = payload := by
  induction pre with
  | nil => simp [afterFirstCommaList]
  | cons c cs ih =>
    have hc : ¬ c = ',' := fun hc => hpre (hc ▸ List.mem_cons_self c cs)
    have ht : ',' ∉ cs := fun hm => hpre (List.mem_cons_of_mem _ hm)
    have hb : (c != ',') = true := bne_iff_ne.mpr hc
    simpa [afterFirstCommaList, List.dropWhile, hb] using ih ht

theorem argmaxPair_snd (xs : List ℚ) :
    ∀ (i b : Nat) (bv : ℚ), (argmaxPair xs i (b, bv)).2 = xs.foldl max bv := by
  induction xs with
  | nil => intro i b bv; rfl
  | cons x xs ih =>
    intro i b bv
    simp only [argmaxPair, List.foldl]
    by_cases h : bv < x
    · rw [if_pos h, ih, max_eq_right h.le]
    · rw [if_neg h, ih, max_eq_left (not_lt.mp h)]

theorem argmaxPair_get (l : List ℚ) :
    ∀ (xs pre : List ℚ) (b : Nat) (bv : ℚ), l = pre ++ xs →
    l.get? b = some bv →
    l.get? (argmaxPair xs pre.length (b, bv)).1 =
      some (argmaxPair xs pre.length (b, bv)).2 := by
  intro xs
  induction xs with
  | nil => intro pre b bv hl h; simpa [argmaxPair] using h
  | cons x xs ih =>
    intro pre b bv hl h
    have hx : l.get? pre.length = some x := by
      rw [hl, List.get?_append_right (Nat.le_refl _)]
      simp
    simp only [argmaxPair]
    have hlen : (pre ++ [x]).length = pre.length + 1 := by simp
    by_cases hlt : bv < x
    · rw [if_pos hlt]
      have h2 := ih (pre ++ [x]) pre.length x (by rw [hl]; simp) hx
      rwa [hlen] at h2
    · rw [if_neg hlt]
      have h2 := ih (pre ++ [x]) b bv (by rw [hl]; simp) h
      rwa [hlen] at h2

theorem npMax_get (l : List ℚ) (h : l ≠ []) :
    l.get? (npArgmax l) = some (npMax l) := by
  rcases l with _ | ⟨x, xs⟩
  · exact absurd rfl h
  · have h1 := argmaxPair_get (x :: xs) xs [x] 0 x rfl rfl
    simp only [List.length_singleton] at h1
    rw [argmaxPair_snd xs 1 0 x] at h1
    simpa only [npArgmax, npMax] using h1

theorem okBody_err (st : Nat) (msg : String) (hst : st ≠ 200)
    (hmsg : msg ≠ "") : okBody (errResponse st msg) :=
  ⟨false, rfl, by simp [errResponse, hst], fun _ => ⟨msg, rfl, hmsg⟩⟩

theorem extractImage_error (req : Request) (resp : Response)
    (h : extractImage req = Except.error resp) :
    ∃ st msg, resp = errResponse st msg ∧ st ≠ 200 ∧ msg ≠ "" := by
  unfold extractImage at h
  by_cases hmp : pyStartsWith req.contentType "multipart/form-data" = true
  · rw [if_pos hmp] at h
    rcases hpi : req.postImage with _ | s
    · simp only [hpi] at h
      injection h with h2
      exact ⟨400, "No image data in form", h2.symm, by decide, by decide⟩
    · simp only [hpi] at h
      by_cases hs : s = ""
      · rw [if_pos hs] at h
        injection h with h2
        exact ⟨400, "No image data in form", h2.symm, by decide, by decide⟩
      · rw [if_neg hs] at h
        simp at h
  · rw [if_neg hmp] at h
    by_cases hct : req.contentType = "application/json"
    · rw [if_pos hct] at h
      rcases hji : req.jsonImage with u | img
      · simp only [hji] at h
        injection h with h2
        exact ⟨400, "Invalid JSON", h2.symm, by decide, by decide⟩
      · simp only [hji] at h
        simp at h
    · rw [if_neg hct] at h
      rcases hrb : req.rawBody with e | body
      · simp only [hrb] at h
        injection h with h2
        exact ⟨500, "Server error: " ++ e, h2.symm, by decide,
          append_ne_empty _ _ (by decide)⟩
      · simp only [hrb] at h
        by_cases hb : body = ""
        · rw [if_pos hb] at h
          injection h with h2
          exact ⟨400, "Empty request body", h2.symm, by decide, by decide⟩
        · rw [if_neg hb] at h
          simp at h

theorem processImage_cases (env : Env) (m : Model) (s : String) :
    (∃ st msg, processImage env m s = errResponse st msg ∧
      st ≠ 200 ∧ msg ≠ "") ∨
    (∃ a x xs, env.decodeResize s = Except.ok a ∧
      m.predict (expandDims (normalize a)) = x :: xs ∧
      npArgmax (x :: xs) < 26 ∧
      processImage env m s =
        ⟨200, [("letter", JValue.str (String.mk [aslMap (npArgmax (x :: xs))])),
               ("confidence", JValue.num (npMax (x :: xs))),
               ("success", JValue.bool true)]⟩) := by
  rcases hd : env.decodeResize s with e | a
  · exact Or.inl ⟨400, "Image processing error: " ++ e,
      by simp [processImage, hd], by decide,
      append_ne_empty _ _ (by decide)⟩
  · by_cases hsh : (npShape4 (expandDims (normalize a))).drop 1 ≠ m.inputShapeTail
    · have hsh2 : (npShape4 (expandDims (normalize a))).tail ≠ m.inputShapeTail := by
        simpa using hsh
      refine Or.inl ⟨400, "Invalid image dimensions. Expected " ++
        toString m.inputShapeTail ++ ", got " ++
        toString ((npShape4 (expandDims (normalize a))).drop 1), ?_, by decide, ?_⟩
      · simp [processImage, hd, hsh2]
      · exact append_ne_empty _ _
          (append_ne_empty _ _ (append_ne_empty _ _ (by decide)))
    · have heq : (npShape4 (expandDims (normalize a))).tail = m.inputShapeTail := by
        simpa using not_ne_iff.mp hsh
      rcases hpr : m.predict (expandDims (normalize a)) with _ | ⟨x, xs⟩
      · exact Or.inl ⟨400,
          "Image processing error: attempt to get argmax of an empty sequence",
          by simp [processImage, hd, heq, hpr], by decide, by decide⟩
      · by_cases hc : aslLetters.length ≤ npArgmax (x :: xs)
        · exact Or.inl ⟨500, "Invalid class index " ++ toString (npArgmax (x :: xs)),
            by simp [processImage, hd, heq, hpr, hc],
            by decide, append_ne_empty _ _ (by decide)⟩
        · refine Or.inr ⟨a, x, xs, rfl, hpr, ?_, ?_⟩
          · have hlt := not_le.mp hc
            rwa [show aslLetters.length = 26 by decide] at hlt
          · simp [processImage, hd, heq, hpr, hc]

theorem predictSign_cases (env : Env) (req : Request) :
    (∃ st msg, predictSign env req = errResponse st msg ∧
      st ≠ 200 ∧ msg ≠ "") ∨
    (∃ m s a x xs, env.model = some m ∧ req.method = "POST" ∧
      extractImage req = Except.ok (some s) ∧ s ≠ "" ∧
      env.decodeResize (stripDataUrl s) = Except.ok a ∧
      m.predict (expandDims (normalize a)) = x :: xs ∧
      npArgmax (x :: xs) < 26 ∧
      predictSign env req =
        ⟨200, [("letter", JValue.str (String.mk [aslMap (npArgmax (x :: xs))])),
               ("confidence", JValue.num (npMax (x :: xs))),
               ("success", JValue.bool true)]⟩) := by
  by_cases hp : req.method = "POST"
  · rcases hmod : env.model with _ | m
    · exact Or.inl ⟨500, "Model not loaded", by simp [predictSign, hp, hmod],
        by decide, by decide⟩
    · rcases hx : extractImage req with resp | img
      · obtain ⟨st, msg, rfl, hst, hmsg⟩ := extractImage_error req resp hx
        exact Or.inl ⟨st, msg, by simp [predictSign, hp, hmod, hx], hst, hmsg⟩
      · rcases img with _ | s
        · exact Or.inl ⟨400, "No image data provided",
            by simp [predictSign, hp, hmod, hx], by decide, by decide⟩
        · by_cases hs : s = ""
          · exact Or.inl ⟨400, "No image data provided",
              by simp [predictSign, hp, hmod, hx, hs], by decide, by decide⟩
          · have hps : predictSign env req = processImage env m (stripDataUrl s) := by
              simp [predictSign, hp, hmod, hx, hs]
            rcases processImage_cases env m (stripDataUrl s) with
              ⟨st, msg, hpi, hst, hmsg⟩ | ⟨a, x, xs, hd, hpr, hlt, hpi⟩
            · exact Or.inl ⟨st, msg, hps.trans hpi, hst, hmsg⟩
            · exact Or.inr ⟨m, s, a, x, xs, rfl, hp, rfl, hs, hd, hpr, hlt,
                hps.trans hpi⟩
  · exact Or.inl ⟨405, "Only POST requests allowed", by simp [predictSign, hp],
      by decide, by decide⟩

/-! ## Claim theorems -/

/-- C1, counterexample: the code takes `split(',')[1]`, the segment between
the first and the second comma, not the whole part after the first comma;
on the comma-containing string `a,b,c` the two disagree. -/
theorem c1_strip_counterexample :
    (',' ∈ ("a,b,c" : String).toList) ∧
    stripDataUrl "a,b,c" ≠ afterFirstComma "a,b,c" ∧
    stripDataUrl "a,b,c" = "b" ∧ afterFirstComma "a,b,c" = "b,c" := by
  decide

/-- C1, amended: when the part after the first comma contains no comma — in
particular for a data-URL prefix followed by a valid base64 payload, since
the base64 alphabet has no comma — `split(',')[1]` equals the part after
the first comma, namely the bare payload, so any decoding of the stripped
string yields exactly the bytes of the decoded bare payload. -/
theorem c1_strip_amended (pre payload : List Char)
    (hpre : ',' ∉ pre) (hpay : ',' ∉ payload) (dec : List Char → List Nat) :
    stripDataUrlList (pre ++ ',' :: payload) = payload ∧
    afterFirstCommaList (pre ++ ',' :: payload) = payload ∧
    stripDataUrl (String.mk (pre ++ ',' :: payload)) = String.mk payload ∧
    dec (stripDataUrlList (pre ++ ',' :: payload)) = dec payload := by
  have h1 := stripDataUrlList_append pre payload hpre hpay
  have h2 := afterFirstCommaList_append pre payload hpre
  exact ⟨h1, h2, congrArg String.mk h1, by rw [h1]⟩

theorem c1_strip_amended_witness :
    (',' ∉ ("data:image/png;base64" : String).toList) ∧
    (',' ∉ ("QUJD" : String).toList) ∧
    stripDataUrlList ("data:image/png;base64".toList ++ ',' :: "QUJD".toList) =
      "QUJD".toList := by
  refine ⟨by decide, by decide, ?_⟩
  exact (c1_strip_amended "data:image/png;base64".toList "QUJD".toList
    (by decide) (by decide) (fun l => l.map Char.toNat)).1

/-- C2, counterexample: with the model unloaded, a POST whose `image` field
is present but empty gets status 500 (the model check at lines 28–29
precedes the empty-image check at lines 59–60), not 400. -/
theorem c2_empty_image_counterexample :
    (predictSign envNoModel reqEmptyImage).status = 500 ∧
    (predictSign envNoModel reqEmptyImage).status ≠ 400 ∧
    reqEmptyImage.method = "POST" ∧
    reqEmptyImage.jsonImage = Except.ok (some "") :=
  ⟨by decide, by decide, by decide, rfl⟩

/-- C2, amended: when the model loaded successfully, every POST request
whose `image` field is present but empty gets status 400 with a nonempty
error message (and hence not a 500). -/
theorem c2_empty_image_amended (env : Env) (req : Request) (m : Model)
    (hm : env.model = some m) (hp : req.method = "POST")
    (he : emptyImageField req) :
    (predictSign env req).status = 400 ∧
    ∃ s, List.lookup "error" (predictSign env req).body =
      some (JValue.str s) ∧ s ≠ "" := by
  rcases he with ⟨h1, h2⟩ | ⟨h1, h2⟩ | ⟨h1, h2, ⟨b, h3⟩, h4⟩
  · have hres : predictSign env req = errResponse 400 "No image data in form" := by
      simp [predictSign, hp, hm, extractImage, h1, h2]
    rw [hres]
    exact ⟨rfl, "No image data in form", rfl, by decide⟩
  · have hmp : pyStartsWith "application/json" "multipart/form-data" = false := by
      decide
    have hres : predictSign env req = errResponse 400 "No image data provided" := by
      simp [predictSign, hp, hm, extractImage, hmp, h1, h2]
    rw [hres]
    exact ⟨rfl, "No image data provided", rfl, by decide⟩
  · by_cases hb : b = ""
    · have hres : predictSign env req = errResponse 400 "Empty request body" := by
        simp [predictSign, hp, hm, extractImage, h1, h2, h3, hb]
      rw [hres]
      exact ⟨rfl, "Empty request body", rfl, by decide⟩
    · have hres : predictSign env req = errResponse 400 "No image data provided" := by
        simp [predictSign, hp, hm, extractImage, h1, h2, h3, hb, h4]
      rw [hres]
      exact ⟨rfl, "No image data provided", rfl, by decide⟩

theorem c2_empty_image_amended_witness :
    envOk.model = some modelOk ∧ emptyImageField reqEmptyImage ∧
    (predictSign envOk reqEmptyImage).status = 400 ∧
    (∃ s, List.lookup "error" (predictSign envOk reqEmptyImage).body =
      some (JValue.str s) ∧ s ≠ "") := by
  have h := c2_empty_image_amended envOk reqEmptyImage modelOk rfl rfl
    (Or.inr (Or.inl ⟨rfl, rfl⟩))
  exact ⟨rfl, Or.inr (Or.inl ⟨rfl, rfl⟩), h.1, h.2⟩

/-- C3: when the model failed to load (`model is None`), every POST request
gets the one fixed 500 `Model not loaded` response — identical across
requests and across everything else in the environment, so no decoding,
preprocessing, or inference influences (or is needed for) the result. -/
theorem c3_model_unavailable (env env2 : Env) (req req2 : Request)
    (h : env.model = none) (h2 : env2.model = none)
    (hm : req.method = "POST") (hm2 : req2.method = "POST") :
    predictSign env req = errResponse 500 "Model not loaded" ∧
    (predictSign env req).status = 500 ∧
    predictSign env2 req2 = predictSign env req := by
  have e1 : predictSign env req = errResponse 500 "Model not loaded" := by
    simp [predictSign, hm, h]
  have e2 : predictSign env2 req2 = errResponse 500 "Model not loaded" := by
    simp [predictSign, hm2, h2]
  exact ⟨e1, by rw [e1]; rfl, e2.trans e1.symm⟩

theorem c3_model_unavailable_witness :
    predictSign envNoModel reqEmptyImage = errResponse 500 "Model not loaded" ∧
    (predictSign envNoModel reqEmptyImage).status = 500 ∧
    predictSign envNoModel reqEmptyImage = predictSign envNoModel reqEmptyImage :=
  c3_model_unavailable envNoModel envNoModel reqEmptyImage reqEmptyImage
    rfl rfl rfl rfl

/-- C4: the label mapping is total on indices 0–25 (the positional lookup
into `asl_letters` is always defined there, no failure path), maps `i` to
the uppercase letter at offset `i` from `'A'` (so 0 ↦ 'A' and 25 ↦ 'Z'),
and is injective on 0–25. -/
theorem c4_label_mapping :
    (∀ i : Fin 26, aslLetters.toList.get? i.val = some (aslMap i.val)) ∧
    aslMap 0 = 'A' ∧ aslMap 25 = 'Z' ∧
    (∀ i : Fin 26, aslMap i.val = Char.ofNat (65 + i.val)) ∧
    (∀ i j : Fin 26, aslMap i.val = aslMap j.val → i = j) := by
  decide

theorem c4_label_mapping_witness :
    aslMap 0 = 'A' ∧ aslMap 25 = 'Z' ∧ (0 : Fin 26) = 0 :=
  ⟨c4_label_mapping.2.1, c4_label_mapping.2.2.1,
    c4_label_mapping.2.2.2.2 0 0 rfl⟩

/-- C5: for every decoded image — a 64×64 grid of 3-channel pixels with
uint8 values, as PIL's `convert('RGB')` and `resize((64, 64))` produce —
the tensor built by dividing by 255 and prepending a batch dimension has
shape exactly (1, 64, 64, 3) and every value in [0, 1]. -/
theorem c5_normalized_tensor (a : List (List (List Nat)))
    (hshape : gridShape a 64 64 3)
    (hpix : ∀ r ∈ a, ∀ p ∈ r, ∀ v ∈ p, v ≤ 255) :
    tensorShape (expandDims (normalize a)) 1 64 64 3 ∧
    ∀ g ∈ expandDims (normalize a), ∀ r ∈ g, ∀ p ∈ r, ∀ q ∈ p,
      0 ≤ q ∧ q ≤ 1 := by
  constructor
  · refine ⟨rfl, ?_⟩
    intro g hg
    simp only [expandDims, List.mem_singleton] at hg
    subst hg
    obtain ⟨hlen, hrows⟩ := hshape
    refine ⟨by simpa [normalize] using hlen, ?_⟩
    intro r hr
    simp only [normalize, List.mem_map] at hr
    obtain ⟨row, hrow, rfl⟩ := hr
    obtain ⟨hrl, hps⟩ := hrows row hrow
    refine ⟨by simpa using hrl, ?_⟩
    intro p hp
    simp only [List.mem_map] at hp
    obtain ⟨px, hpx2, rfl⟩ := hp
    rw [List.length_map]
    exact hps px hpx2
  · intro g hg
    simp only [expandDims, List.mem_singleton] at hg
    subst hg
    intro r hr p hp q hq
    simp only [normalize, List.mem_map] at hr
    obtain ⟨row, hrow, rfl⟩ := hr
    simp only [List.mem_map] at hp
    obtain ⟨px, hpx1, rfl⟩ := hp
    simp only [List.mem_map] at hq
    obtain ⟨v, hv, rfl⟩ := hq
    have hvb := hpix row hrow px hpx1 v hv
    constructor
    · exact div_nonneg (Nat.cast_nonneg v) (by norm_num)
    · rw [div_le_one (by norm_num)]
      exact_mod_cast hvb

theorem c5_normalized_tensor_witness :
    gridShape grid64 64 64 3 ∧
    tensorShape (expandDims (normalize grid64)) 1 64 64 3 := by
  have hsh : gridShape grid64 64 64 3 := by
    constructor
    · simp [grid64]
    · intro r hr
      simp only [grid64] at hr
      obtain rfl := List.eq_of_mem_replicate hr
      constructor
      · simp
      · intro p hp
        obtain rfl := List.eq_of_mem_replicate hp
        simp
  have hpix : ∀ r ∈ grid64, ∀ p ∈ r, ∀ v ∈ p, v ≤ 255 := by
    intro r hr p hp v hv
    simp only [grid64] at hr
    obtain rfl := List.eq_of_mem_replicate hr
    obtain rfl := List.eq_of_mem_replicate hp
    obtain rfl := List.eq_of_mem_replicate hv
    decide
  exact ⟨hsh, (c5_normalized_tensor grid64 hsh hpix).1⟩

/-- C6: with the model loaded, a POST request whose extracted image string
is nonempty but whose base64/image decoding raises (corrupted base64 or an
invalid image container) gets the structured 400 image-processing error
response — the exception is caught at the handler, never left unhandled. -/
theorem c6_decode_error_handled (env : Env) (req : Request) (m : Model)
    (s e : String) (hm : env.model = some m) (hp : req.method = "POST")
    (hx : extractImage req = Except.ok (some s)) (hs : s ≠ "")
    (hd : env.decodeResize (stripDataUrl s) = Except.error e) :
    predictSign env req = errResponse 400 ("Image processing error: " ++ e) ∧
    (predictSign env req).status = 400 ∧
    List.lookup "success" (predictSign env req).body =
      some (JValue.bool false) ∧
    List.lookup "error" (predictSign env req).body =
      some (JValue.str ("Image processing error: " ++ e)) ∧
    "Image processing error: " ++ e ≠ "" := by
  have hres : predictSign env req =
      errResponse 400 ("Image processing error: " ++ e) := by
    simp [predictSign, hp, hm, hx, hs, processImage, hd]
  rw [hres]
  exact ⟨rfl, rfl, rfl, rfl, append_ne_empty _ _ (by decide)⟩

theorem c6_decode_error_handled_witness :
    extractImage reqBadB64 = Except.ok (some "!!!!") ∧
    predictSign envBadB64 reqBadB64 =
      errResponse 400 ("Image processing error: " ++
        "Invalid base64-encoded string") :=
  ⟨rfl, (c6_decode_error_handled envBadB64 reqBadB64 modelOk "!!!!"
    "Invalid base64-encoded string" rfl rfl rfl (by decide) rfl).1⟩

/-- C7: if the model's output is a vector of probabilities (entries in
[0, 1]), then every 200 response carries as `confidence` the maximum entry
of that vector, which lies in [0, 1] and is the entry at the arg-max index
— the same index that selects the returned letter. -/
theorem c7_confidence_argmax (env : Env) (req : Request) (m : Model)
    (hm : env.model = some m)
    (hprob : ∀ arr : List (List (List (List ℚ))),
      ∀ v ∈ m.predict arr, 0 ≤ v ∧ v ≤ 1)
    (h200 : (predictSign env req).status = 200) :
    ∃ pred, (∃ arr, pred = m.predict arr) ∧ pred ≠ [] ∧
      List.lookup "confidence" (predictSign env req).body =
        some (JValue.num (npMax pred)) ∧
      0 ≤ npMax pred ∧ npMax pred ≤ 1 ∧
      pred.get? (npArgmax pred) = some (npMax pred) ∧
      List.lookup "letter" (predictSign env req).body =
        some (JValue.str (String.mk [aslMap (npArgmax pred)])) := by
  rcases predictSign_cases env req with ⟨st, msg, heq, hst, _⟩ |
    ⟨m2, s, a, x, xs, hm2, _, _, _, _, hpr, _, heq⟩
  · rw [heq] at h200
    exact absurd h200 hst
  · have hmm : m2 = m := by
      have h3 := hm2.symm.trans hm
      injection h3
    rw [hmm] at hpr
    have hget := npMax_get (x :: xs) (by simp)
    have hmem2 : npMax (x :: xs) ∈ m.predict (expandDims (normalize a)) := by
      rw [hpr]
      exact List.get?_mem hget
    refine ⟨x :: xs, ⟨expandDims (normalize a), hpr.symm⟩, by simp,
      ?_, (hprob _ _ hmem2).1, (hprob _ _ hmem2).2, hget, ?_⟩
    · rw [heq]
      rfl
    · rw [heq]
      rfl

theorem c7_confidence_argmax_witness :
    (predictSign envOk reqOk).status = 200 ∧
    (∃ pred, (∃ arr, pred = modelOk.predict arr) ∧ pred ≠ [] ∧
      List.lookup "confidence" (predictSign envOk reqOk).body =
        some (JValue.num (npMax pred)) ∧
      0 ≤ npMax pred ∧ npMax pred ≤ 1 ∧
      pred.get? (npArgmax pred) = some (npMax pred) ∧
      List.lookup "letter" (predictSign envOk reqOk).body =
        some (JValue.str (String.mk [aslMap (npArgmax pred)]))) := by
  refine ⟨by decide, c7_confidence_argmax envOk reqOk modelOk rfl ?_ (by decide)⟩
  intro arr v hv
  simp only [modelOk] at hv
  rw [List.mem_singleton] at hv
  subst hv
  constructor <;> norm_num

/-- C8: the letters endpoint returns status 200 with exactly 26 records,
each record's index equal to its array position, letters in alphabetical
order from 'A' to 'Z', each with the fixed templated description. -/
theorem c8_letters_endpoint :
    aslLettersView.status = 200 ∧
    aslLettersView.letters.length = 26 ∧
    (∀ i : Fin 26,
      (aslLettersView.letters.getD i.val ⟨"", 0, ""⟩).index = i.val ∧
      (aslLettersView.letters.getD i.val ⟨"", 0, ""⟩).letter =
        String.mk [Char.ofNat (65 + i.val)] ∧
      (aslLettersView.letters.getD i.val ⟨"", 0, ""⟩).description =
        "ASL sign for letter " ++ String.mk [Char.ofNat (65 + i.val)]) ∧
    aslLettersView.letters.map (fun r => r.letter) =
      ["A", "B", "C", "D", "E", "F", "G", "H", "I", "J", "K", "L", "M",
       "N", "O", "P", "Q", "R", "S", "T", "U", "V", "W", "X", "Y", "Z"] := by
  decide

/-- C9: every response of the predict handler carries a boolean `success`
field that is `true` exactly when the status is 200, and every response
with `success` false carries a nonempty `error` string. -/
theorem c9_success_field (env : Env) (req : Request) :
    okBody (predictSign env req) := by
  rcases predictSign_cases env req with ⟨st, msg, heq, hst, hmsg⟩ |
    ⟨m, s, a, x, xs, _, _, _, _, _, _, _, heq⟩
  · rw [heq]
    exact okBody_err st msg hst hmsg
  · rw [heq]
    exact ⟨true, rfl, by simp, by simp⟩

theorem c9_success_field_witness : okBody (predictSign envOk reqOk) :=
  c9_success_field envOk reqOk

/-- C10: every 200 response body of the predict handler has exactly the
keys `letter`, `confidence`, `success` in that order; in particular it
never contains a `predicted_letter` or an `all_predictions` key. -/
theorem c10_success_keys (env : Env) (req : Request)
    (h : (predictSign env req).status = 200) :
    (predictSign env req).body.map Prod.fst =
      ["letter", "confidence", "success"] ∧
    List.lookup "predicted_letter" (predictSign env req).body = none ∧
    List.lookup "all_predictions" (predictSign env req).body = none := by
  rcases predictSign_cases env req with ⟨st, msg, heq, hst, _⟩ |
    ⟨m, s, a, x, xs, _, _, _, _, _, _, _, heq⟩
  · rw [heq] at h
    exact absurd h hst
  · rw [heq]
    exact ⟨rfl, rfl, rfl⟩

theorem c10_success_keys_witness :
    (predictSign envOk reqOk).status = 200 ∧
    ((predictSign envOk reqOk).body.map Prod.fst =
      ["letter", "confidence", "success"] ∧
    List.lookup "predicted_letter" (predictSign envOk reqOk).body = none ∧
    List.lookup "all_predictions" (predictSign envOk reqOk).body = none) :=
  ⟨by decide, c10_success_keys envOk reqOk (by decide)⟩

end ASL
